import Mathlib

/-!
Verification development for the Vulkan-Engine repository
(`Source/Application.cpp` / `Application.hpp`).

The definitions below are a shallow embedding of the engine's device
negotiation and startup code: C++ machine integers (`uint32_t`) are
modelled as `Nat` with an explicit `% 2^32` where overflow matters,
`std::optional` as `Option`, throwing code as `Except`, and the
Vulkan enumerations as inductive types carrying the enumerants the
code inspects plus a catch-all constructor for every other value.
-/

namespace VulkanEngine

/-- Largest representable unsigned 32-bit value; the Vulkan sentinel
used by `chooseSwapExtent` (`UINT32_MAX`). -/
def UINT32_MAX : Nat := 4294967295

/-- Model of `vk::Extent2D`: a pair of `uint32_t` dimensions. -/
structure Extent2D where
  width : Nat
  height : Nat
deriving DecidableEq, Repr

/-- Model of the fields of `vk::SurfaceCapabilitiesKHR` that
`Application` reads: image-count bounds and extent bounds. -/
structure SurfaceCapabilitiesKHR where
  minImageCount : Nat
  maxImageCount : Nat
  currentExtent : Extent2D
  minImageExtent : Extent2D
  maxImageExtent : Extent2D
deriving DecidableEq, Repr

/-- Model of `vk::Format`: the one enumerant the code compares against,
plus a catch-all for every other format code. -/
inductive Format where
  | b8g8r8a8Srgb
  | otherFormat (code : Nat)
deriving DecidableEq, Repr

/-- Model of `vk::ColorSpaceKHR`: the one enumerant the code compares
against, plus a catch-all. -/
inductive ColorSpaceKHR where
  | srgbNonlinear
  | otherColorSpace (code : Nat)
deriving DecidableEq, Repr

/-- Model of `vk::SurfaceFormatKHR`. -/
structure SurfaceFormatKHR where
  format : Format
  colorSpace : ColorSpaceKHR
deriving DecidableEq, Repr

/-- Model of `vk::PresentModeKHR`: the enumerants the code mentions
plus a catch-all. -/
inductive PresentModeKHR where
  | mailbox
  | fifo
  | otherMode (code : Nat)
deriving DecidableEq, Repr

/-- Model of `vk::PhysicalDeviceType`. -/
inductive PhysicalDeviceType where
  | discreteGpu
  | integratedGpu
  | virtualGpu
  | cpu
  | otherType
deriving DecidableEq, Repr

/-- Model of C++ `std::clamp(v, lo, hi)` on unsigned integers:
returns `lo` if `v < lo`, else `hi` if `hi < v`, else `v`
(the behaviour the standard specifies for `lo ≤ hi`). -/
def stdClamp (v lo hi : Nat) : Nat :=
  if v < lo then lo else if hi < v then hi else v

/-- The predicate of the lambda in `Application::chooseSwapSurfaceFormat`:
format is `vk::Format::eB8G8R8A8Srgb` and colour space is
`vk::ColorSpaceKHR::eSrgbNonlinear`. -/
def isPreferredFormat (f : SurfaceFormatKHR) : Bool :=
  decide (f.format = Format.b8g8r8a8Srgb) &&
    decide (f.colorSpace = ColorSpaceKHR.srgbNonlinear)

/-- Embedding of `Application::chooseSwapSurfaceFormat`: `std::find_if`
over the offered list for the preferred pair (first match wins) and, if
none matches, `formats.front()`.  `front()` on an empty vector is
undefined behaviour in C++, so the embedding is `Option`-valued:
`head?` returns `none` exactly when `front()` would be undefined. -/
def chooseSwapSurfaceFormat (formats : List SurfaceFormatKHR) :
    Option SurfaceFormatKHR :=
  match formats.find? isPreferredFormat with
  | some f => some f
  | none => formats.head?

/-- Embedding of `Application::chooseSwapPresentMode`: scan the offered
modes in order and return the first equal to mailbox; if the scan
finishes, return FIFO. -/
def chooseSwapPresentMode : List PresentModeKHR → PresentModeKHR
  | [] => PresentModeKHR.fifo
  | m :: ms =>
    if m = PresentModeKHR.mailbox then m else chooseSwapPresentMode ms

/-- Embedding of `Application::chooseSwapExtent`: if both components of
`currentExtent` differ from `UINT32_MAX` it is returned verbatim;
otherwise the window dimensions (`window_width_`, `window_height_`,
passed here as parameters) are clamped per axis into
`[minImageExtent, maxImageExtent]`. -/
def chooseSwapExtent (windowWidth windowHeight : Nat)
    (capabilities : SurfaceCapabilitiesKHR) : Extent2D :=
  if capabilities.currentExtent.width ≠ UINT32_MAX ∧
      capabilities.currentExtent.height ≠ UINT32_MAX then
    capabilities.currentExtent
  else
    { width := stdClamp windowWidth capabilities.minImageExtent.width
        capabilities.maxImageExtent.width,
      height := stdClamp windowHeight capabilities.minImageExtent.height
        capabilities.maxImageExtent.height }

/-- The window dimensions fixed in `Application.hpp`
(`window_width_ = 800`, `window_height_ = 600`). -/
def window_width_ : Nat := 800

/-- See `window_width_`. -/
def window_height_ : Nat := 600

/-! ## Queue family resolution (`Application::findQueueFamilies`) -/

/-- Value of `vk::QueueFlagBits::eGraphics` (bit 0 of `VkQueueFlags`). -/
def eGraphics : Nat := 1

/-- Value of `vk::QueueFlagBits::eCompute` (bit 1 of `VkQueueFlags`). -/
def eCompute : Nat := 2

/-- Value of `vk::QueueFlagBits::eTransfer` (bit 2 of `VkQueueFlags`). -/
def eTransfer : Nat := 4

/-- Model of the C++ test `flags & bit`: nonzero bitwise AND. -/
def hasFlag (flags bit : Nat) : Bool := decide (Nat.land flags bit ≠ 0)

/-- What `findQueueFamilies` observes about one queue family:
its `vk::QueueFamilyProperties::queueFlags` bitmask, together with the
answer of the side query `getSurfaceSupportKHR(i, surface)` made for
that family's index. -/
structure QueueFamilyInfo where
  queueFlags : Nat
  presentSupport : Bool
deriving DecidableEq, Repr

/-- Model of `Application::QueueFamilyIndices`: four independent
`std::optional<uint32_t>` role indices. -/
structure QueueFamilyIndices where
  graphics : Option Nat := none
  transfer : Option Nat := none
  compute : Option Nat := none
  present : Option Nat := none
deriving DecidableEq, Repr

/-- One iteration of the scan loop in `Application::findQueueFamilies`:
each of the four role indices is overwritten with the current index `i`
whenever family `i` offers that role. -/
def findQueueFamiliesStep (qfi : QueueFamilyIndices) (i : Nat)
    (prop : QueueFamilyInfo) : QueueFamilyIndices :=
  let q1 := if hasFlag prop.queueFlags eGraphics then
    { qfi with graphics := some i } else qfi
  let q2 := if hasFlag prop.queueFlags eTransfer then
    { q1 with transfer := some i } else q1
  let q3 := if hasFlag prop.queueFlags eCompute then
    { q2 with compute := some i } else q2
  if prop.presentSupport then { q3 with present := some i } else q3

/-- The loop of `Application::findQueueFamilies`, with the loop counter
made explicit. -/
def findQueueFamiliesAux :
    QueueFamilyIndices → Nat → List QueueFamilyInfo → QueueFamilyIndices
  | qfi, _, [] => qfi
  | qfi, i, p :: ps => findQueueFamiliesAux (findQueueFamiliesStep qfi i p) (i + 1) ps

/-- Embedding of `Application::findQueueFamilies`: a single linear scan
over the family list in index order starting from an all-unset record. -/
def findQueueFamilies (fams : List QueueFamilyInfo) : QueueFamilyIndices :=
  findQueueFamiliesAux {} 0 fams

/-- Role predicates, as tested in the scan body. -/
def offersGraphics (f : QueueFamilyInfo) : Bool := hasFlag f.queueFlags eGraphics

/-- See `offersGraphics`. -/
def offersTransfer (f : QueueFamilyInfo) : Bool := hasFlag f.queueFlags eTransfer

/-- See `offersGraphics`. -/
def offersCompute (f : QueueFamilyInfo) : Bool := hasFlag f.queueFlags eCompute

/-- See `offersGraphics`; present support is the surface query, not a flag. -/
def offersPresent (f : QueueFamilyInfo) : Bool := f.presentSupport

/-- Specification-side description of one resolved role (from the spec's
words): the result is the highest index in the list whose family offers
the role, and `none` exactly when no family offers it. -/
def IsHighestMatch (p : QueueFamilyInfo → Bool) (fams : List QueueFamilyInfo) :
    Option Nat → Prop
  | none => ∀ i : Fin fams.length, p (fams.get i) = false
  | some j => ∃ h : j < fams.length, p (fams.get ⟨j, h⟩) = true ∧
      ∀ i : Fin fams.length, p (fams.get i) = true → i.val ≤ j

/-- Single-role image of the scan: the accumulator for one role field,
used to reason about `findQueueFamiliesAux` one field at a time. -/
def scanRole (p : QueueFamilyInfo → Bool) :
    Option Nat → Nat → List QueueFamilyInfo → Option Nat
  | acc, _, [] => acc
  | acc, n, f :: fs => scanRole p (if p f then some n else acc) (n + 1) fs

/-! ## Device suitability (`Application::isDeviceSuitable`) -/

/-- The fixed required device-extension list of `Application.hpp`:
`required_device_extensions_ = { "VK_KHR_swapchain" }`. -/
def required_device_extensions_ : List String := ["VK_KHR_swapchain"]

/-- What `isDeviceSuitable` observes about one physical device: its
reported type, its reported extension-name list, and the surface format
and present-mode lists returned by `querySwapchainSupportDetails` for
the device and the application surface. -/
structure DeviceCandidate where
  deviceType : PhysicalDeviceType
  extensionNames : List String
  formats : List SurfaceFormatKHR
  presentModes : List PresentModeKHR
deriving DecidableEq, Repr

/-- Embedding of `Application::isDeviceSuitable`.  The C++ builds a
`std::set` from `required_device_extensions_` and erases every reported
name; the set is nonempty afterwards exactly when some required name is
missing from the reported list, which is what the `filter` below keeps. -/
def isDeviceSuitable (dev : DeviceCandidate) : Bool :=
  if dev.deviceType ≠ PhysicalDeviceType.discreteGpu then false
  else if !(required_device_extensions_.filter
      (fun e => !(dev.extensionNames.contains e))).isEmpty then false
  else if dev.formats.isEmpty || dev.presentModes.isEmpty then false
  else true

/-! ## Swapchain configuration (`Application::initSwapchain`) -/

/-- Image-count selection of `initSwapchain`: `minImageCount + 1` in
`uint32_t` arithmetic (hence the `% 2^32`), then `std::clamp`ed into
`[minImageCount, maxImageCount]` only when `maxImageCount > 0`. -/
def chooseImageCount (caps : SurfaceCapabilitiesKHR) : Nat :=
  let image_count := (caps.minImageCount + 1) % 4294967296
  if caps.maxImageCount > 0 then
    stdClamp image_count caps.minImageCount caps.maxImageCount
  else image_count

/-- Model of `vk::SharingMode`. -/
inductive SharingMode where
  | exclusive
  | concurrent
deriving DecidableEq, Repr

/-- Sharing-mode selection of `initSwapchain`: concurrent with the index
list `[graphics, present]` when the two resolved indices differ,
exclusive with the (default-constructed, empty) index list otherwise. -/
def swapchainSharing (graphicsIndex presentIndex : Nat) :
    SharingMode × List Nat :=
  if graphicsIndex ≠ presentIndex then
    (SharingMode.concurrent, [graphicsIndex, presentIndex])
  else
    (SharingMode.exclusive, [])

/-! ## Startup sequencing and teardown
(`Application::Application`, `Application::~Application`,
`Application::initQueueFamilies`, `Application::initDevice`) -/

/-- The errors the modelled startup steps can raise.
`badOptionalAccess` models the `std::bad_optional_access` exception that
`std::optional::value()` throws on an unset optional. -/
inductive StartupError where
  | noGraphicsQueue
  | noPresentQueue
  | badOptionalAccess
deriving DecidableEq, Repr

/-- Model of `std::optional<uint32_t>::value()`: the contained value, or
the `std::bad_optional_access` exception when unset. -/
def optionalValue (o : Option Nat) : Except StartupError Nat :=
  match o with
  | some v => Except.ok v
  | none => Except.error StartupError.badOptionalAccess

/-- Embedding of `Application::initQueueFamilies` applied to an already
resolved `QueueFamilyIndices`: a missing graphics or present index
throws; a missing transfer or compute index only prints a warning to
`cerr` (returned here as the list of warning lines) and execution
continues. -/
def initQueueFamiliesCheck (qfi : QueueFamilyIndices) :
    Except StartupError (QueueFamilyIndices × List String) :=
  if qfi.graphics.isNone then Except.error StartupError.noGraphicsQueue
  else if qfi.present.isNone then Except.error StartupError.noPresentQueue
  else Except.ok (qfi,
    (if qfi.transfer.isNone then
      ["Could not find a transfer queue for selected device"] else []) ++
    (if qfi.compute.isNone then
      ["Could not find a compute queue for selected device"] else []))

/-- Insertion into a sorted duplicate-free list, modelling
`std::set<uint32_t>::insert` (iteration order of the set is ascending). -/
def sortedInsert (x : Nat) : List Nat → List Nat
  | [] => [x]
  | y :: ys =>
    if x < y then x :: y :: ys
    else if x = y then y :: ys
    else y :: sortedInsert x ys

/-- Embedding of the queue-family gathering at the start of
`Application::initDevice`: all four optionals are dereferenced with
`value()` unconditionally and inserted into a `std::set<uint32_t>`. -/
def initDeviceQueueFamilySet (qfi : QueueFamilyIndices) :
    Except StartupError (List Nat) := do
  let g ← optionalValue qfi.graphics
  let t ← optionalValue qfi.transfer
  let c ← optionalValue qfi.compute
  let p ← optionalValue qfi.present
  Except.ok (sortedInsert p (sortedInsert c (sortedInsert t (sortedInsert g []))))

/-- The part of the startup sequence between queue-family resolution and
logical-device creation, as composed by the `Application` constructor:
`findQueueFamilies`, then `initQueueFamilies`, then the queue-family
gathering of `initDevice`. -/
def startupQueuePhase (fams : List QueueFamilyInfo) :
    Except StartupError (List Nat) := do
  let r ← initQueueFamiliesCheck (findQueueFamilies fams)
  initDeviceQueueFamilySet r.1

/-- The destroyable objects created by the forward initialization
sequence of the `Application` constructor, in creation order (the
physical-device and queue-resolution steps create no destroyable
object). -/
inductive EngineObject where
  | window
  | vkInstance
  | vkSurface
  | vkDevice
  | vkSwapchain
  | imageViews
deriving DecidableEq, Repr, Fintype

/-- Creation order of the destroyable objects: `initSDL` creates the
window, `initInstance` the instance and then the surface, `initDevice`
the logical device, `initSwapchain` the swapchain, and
`initSwapchainImageViews` the image views. -/
def forwardObjects : List EngineObject :=
  [EngineObject.window, EngineObject.vkInstance, EngineObject.vkSurface,
   EngineObject.vkDevice, EngineObject.vkSwapchain, EngineObject.imageViews]

/-- The objects created when the forward sequence stops after `k` of its
six object-creating steps. -/
def createdObjects (k : Nat) : List EngineObject := forwardObjects.take k

/-- The destruction order hard-coded in `Application::~Application`:
image views, swapchain, surface, logical device, instance, window. -/
def destructorSequence : List EngineObject :=
  [EngineObject.imageViews, EngineObject.vkSwapchain, EngineObject.vkSurface,
   EngineObject.vkDevice, EngineObject.vkInstance, EngineObject.window]

/-- The teardown the program actually performs when the forward sequence
stopped after `k` object-creating steps.  In C++ the destructor of
`Application` runs only for a completely constructed object: an
exception thrown from the constructor (any fatal startup error)
propagates and `~Application` is never invoked, so no teardown happens
for a partial prefix.  Only when all steps succeeded (`k = 6`) does the
destructor run, in `destructorSequence` order. -/
def teardownPerformed (k : Nat) : List EngineObject :=
  if k = 6 then destructorSequence else []

/-! ## Helper lemmas -/

/-- A clamp with ordered bounds never exceeds the upper bound. -/
theorem stdClamp_le_hi (v lo hi : Nat) (h : lo ≤ hi) : stdClamp v lo hi ≤ hi := by
  unfold stdClamp
  split
  · exact h
  · split
    · exact Nat.le_refl hi
    · omega

/-- The set-difference test of `isDeviceSuitable` is empty exactly when
every required extension name appears among the reported names. -/
theorem unsupported_isEmpty_iff (dev : DeviceCandidate) :
    (required_device_extensions_.filter
      (fun e => !(dev.extensionNames.contains e))).isEmpty = true ↔
    ∀ e ∈ required_device_extensions_, e ∈ dev.extensionNames := by
  rw [List.isEmpty_iff, List.filter_eq_nil_iff]
  constructor
  · intro h e he
    have h2 := h e he
    simp at h2
    exact h2
  · intro h e he
    simp [h e he]

/-- Full characterization of `isDeviceSuitable`. -/
theorem isDeviceSuitable_eq_true_iff (dev : DeviceCandidate) :
    isDeviceSuitable dev = true ↔
      dev.deviceType = PhysicalDeviceType.discreteGpu ∧
      (∀ e ∈ required_device_extensions_, e ∈ dev.extensionNames) ∧
      dev.formats ≠ [] ∧ dev.presentModes ≠ [] := by
  by_cases htype : dev.deviceType = PhysicalDeviceType.discreteGpu
  · by_cases hsub : ∀ e ∈ required_device_extensions_, e ∈ dev.extensionNames
    · have hext : (required_device_extensions_.filter
          (fun e => !(dev.extensionNames.contains e))).isEmpty = true :=
        (unsupported_isEmpty_iff dev).mpr hsub
      by_cases hfmt : dev.formats = []
      · unfold isDeviceSuitable
        rw [hext]
        simp [htype, hfmt]
      · by_cases hpm : dev.presentModes = []
        · unfold isDeviceSuitable
          rw [hext]
          simp [htype, hfmt, hpm]
        · unfold isDeviceSuitable
          rw [hext]
          simp [htype, hfmt, hpm, List.isEmpty_iff]
          exact hsub
    · have hext : (required_device_extensions_.filter
          (fun e => !(dev.extensionNames.contains e))).isEmpty = false :=
        Bool.eq_false_iff.mpr (fun h => hsub ((unsupported_isEmpty_iff dev).mp h))
      unfold isDeviceSuitable
      rw [hext]
      simp [htype, hsub]
  · unfold isDeviceSuitable
    simp [htype]

/-- With a nonempty input list the format selection always produces a
value: either the scan finds the preferred pair or `front()` is taken
on a nonempty vector. -/
theorem chooseSwapSurfaceFormat_isSome (formats : List SurfaceFormatKHR)
    (h : formats ≠ []) : (chooseSwapSurfaceFormat formats).isSome = true := by
  unfold chooseSwapSurfaceFormat
  cases hf : formats.find? isPreferredFormat with
  | some f => rfl
  | none => simpa [Option.isSome] using List.head?_isSome.mpr h

/-- Graphics projection of one scan step. -/
theorem findQueueFamiliesStep_graphics (qfi : QueueFamilyIndices) (i : Nat)
    (prop : QueueFamilyInfo) :
    (findQueueFamiliesStep qfi i prop).graphics =
      if offersGraphics prop then some i else qfi.graphics := by
  unfold findQueueFamiliesStep offersGraphics
  by_cases h1 : hasFlag prop.queueFlags eGraphics = true <;>
    by_cases h2 : hasFlag prop.queueFlags eTransfer = true <;>
      by_cases h3 : hasFlag prop.queueFlags eCompute = true <;>
        by_cases h4 : prop.presentSupport = true <;>
          simp [h1, h2, h3, h4]

/-- Transfer projection of one scan step. -/
theorem findQueueFamiliesStep_transfer (qfi : QueueFamilyIndices) (i : Nat)
    (prop : QueueFamilyInfo) :
    (findQueueFamiliesStep qfi i prop).transfer =
      if offersTransfer prop then some i else qfi.transfer := by
  unfold findQueueFamiliesStep offersTransfer
  by_cases h1 : hasFlag prop.queueFlags eGraphics = true <;>
    by_cases h2 : hasFlag prop.queueFlags eTransfer = true <;>
      by_cases h3 : hasFlag prop.queueFlags eCompute = true <;>
        by_cases h4 : prop.presentSupport = true <;>
          simp [h1, h2, h3, h4]

/-- Compute projection of one scan step. -/
theorem findQueueFamiliesStep_compute (qfi : QueueFamilyIndices) (i : Nat)
    (prop : QueueFamilyInfo) :
    (findQueueFamiliesStep qfi i prop).compute =
      if offersCompute prop then some i else qfi.compute := by
  unfold findQueueFamiliesStep offersCompute
  by_cases h1 : hasFlag prop.queueFlags eGraphics = true <;>
    by_cases h2 : hasFlag prop.queueFlags eTransfer = true <;>
      by_cases h3 : hasFlag prop.queueFlags eCompute = true <;>
        by_cases h4 : prop.presentSupport = true <;>
          simp [h1, h2, h3, h4]

/-- Present projection of one scan step. -/
theorem findQueueFamiliesStep_present (qfi : QueueFamilyIndices) (i : Nat)
    (prop : QueueFamilyInfo) :
    (findQueueFamiliesStep qfi i prop).present =
      if offersPresent prop then some i else qfi.present := by
  unfold findQueueFamiliesStep offersPresent
  by_cases h1 : hasFlag prop.queueFlags eGraphics = true <;>
    by_cases h2 : hasFlag prop.queueFlags eTransfer = true <;>
      by_cases h3 : hasFlag prop.queueFlags eCompute = true <;>
        by_cases h4 : prop.presentSupport = true <;>
          simp [h1, h2, h3, h4]

/-- Graphics projection of the whole scan loop as a single-role scan. -/
theorem findQueueFamiliesAux_graphics (fams : List QueueFamilyInfo)
    (qfi : QueueFamilyIndices) (n : Nat) :
    (findQueueFamiliesAux qfi n fams).graphics =
      scanRole offersGraphics qfi.graphics n fams := by
  induction fams generalizing qfi n with
  | nil => rfl
  | cons f fs ih =>
    simp only [findQueueFamiliesAux, scanRole]
    rw [ih, findQueueFamiliesStep_graphics]

/-- Transfer projection of the whole scan loop as a single-role scan. -/
theorem findQueueFamiliesAux_transfer (fams : List QueueFamilyInfo)
    (qfi : QueueFamilyIndices) (n : Nat) :
    (findQueueFamiliesAux qfi n fams).transfer =
      scanRole offersTransfer qfi.transfer n fams := by
  induction fams generalizing qfi n with
  | nil => rfl
  | cons f fs ih =>
    simp only [findQueueFamiliesAux, scanRole]
    rw [ih, findQueueFamiliesStep_transfer]

/-- Compute projection of the whole scan loop as a single-role scan. -/
theorem findQueueFamiliesAux_compute (fams : List QueueFamilyInfo)
    (qfi : QueueFamilyIndices) (n : Nat) :
    (findQueueFamiliesAux qfi n fams).compute =
      scanRole offersCompute qfi.compute n fams := by
  induction fams generalizing qfi n with
  | nil => rfl
  | cons f fs ih =>
    simp only [findQueueFamiliesAux, scanRole]
    rw [ih, findQueueFamiliesStep_compute]

/-- Present projection of the whole scan loop as a single-role scan. -/
theorem findQueueFamiliesAux_present (fams : List QueueFamilyInfo)
    (qfi : QueueFamilyIndices) (n : Nat) :
    (findQueueFamiliesAux qfi n fams).present =
      scanRole offersPresent qfi.present n fams := by
  induction fams generalizing qfi n with
  | nil => rfl
  | cons f fs ih =>
    simp only [findQueueFamiliesAux, scanRole]
    rw [ih, findQueueFamiliesStep_present]

/-- Appending one family to the scanned list: the new family overwrites
the previous result exactly when it offers the role. -/
theorem scanRole_append (p : QueueFamilyInfo → Bool) (acc : Option Nat)
    (n : Nat) (fams : List QueueFamilyInfo) (f : QueueFamilyInfo) :
    scanRole p acc n (fams ++ [f]) =
      if p f then some (n + fams.length) else scanRole p acc n fams := by
  induction fams generalizing acc n with
  | nil =>
    simp only [List.nil_append, scanRole, List.length_nil, Nat.add_zero]
  | cons g gs ih =>
    simp only [List.cons_append, scanRole, List.append_eq]
    rw [ih]
    by_cases hpf : p f = true
    · rw [if_pos hpf, if_pos hpf]
      congr 1
      simp only [List.length_cons]
      omega
    · rw [if_neg hpf, if_neg hpf]

/-- The single-role scan started from an unset accumulator resolves to
the highest index whose family satisfies the role predicate. -/
theorem scanRole_isHighestMatch (p : QueueFamilyInfo → Bool)
    (fams : List QueueFamilyInfo) :
    IsHighestMatch p fams (scanRole p none 0 fams) := by
  induction fams using List.reverseRecOn with
  | nil =>
    intro i
    exact absurd i.isLt (by simp)
  | append_singleton fs f ih =>
    rw [scanRole_append]
    by_cases hpf : p f = true
    · rw [if_pos hpf]
      simp only [Nat.zero_add]
      have hlt : fs.length < (fs ++ [f]).length := by
        simp [List.length_append]
      refine ⟨hlt, ?_, ?_⟩
      · simpa [List.get_eq_getElem] using hpf
      · intro i _
        have hi := i.isLt
        simp only [List.length_append, List.length_singleton] at hi
        omega
    · rw [if_neg hpf]
      cases hr : scanRole p none 0 fs with
      | none =>
        rw [hr] at ih
        intro i
        rcases Nat.lt_or_ge i.val fs.length with hlt | hge
        · have hfi := ih ⟨i.val, hlt⟩
          simpa [List.get_eq_getElem, List.getElem_append_left hlt] using hfi
        · have hi : i.val = fs.length := by
            have := i.isLt
            simp only [List.length_append, List.length_singleton] at this
            omega
          have hget : (fs ++ [f]).get i = f := by
            simp [List.get_eq_getElem, hi]
          rw [hget]
          exact Bool.eq_false_iff.mpr hpf
      | some j =>
        rw [hr] at ih
        obtain ⟨hj, hpj, hmax⟩ := ih
        have hj2 : j < (fs ++ [f]).length := by
          simp only [List.length_append, List.length_singleton]
          omega
        refine ⟨hj2, ?_, ?_⟩
        · simpa [List.get_eq_getElem, List.getElem_append_left hj] using hpj
        · intro i hpi
          rcases Nat.lt_or_ge i.val fs.length with hlt | hge
          · exact hmax ⟨i.val, hlt⟩
              (by simpa [List.get_eq_getElem, List.getElem_append_left hlt] using hpi)
          · exfalso
            have hi : i.val = fs.length := by
              have := i.isLt
              simp only [List.length_append, List.length_singleton] at this
              omega
            have hget : (fs ++ [f]).get i = f := by
              simp [List.get_eq_getElem, hi]
            rw [hget] at hpi
            exact hpf hpi

/-! ## Claims -/

/-- C2 counterexample.  The claim asserts that after a fatal error the
teardown destroys exactly the created prefix in exact reverse creation
order.  At prefix length 1 (window created, instance creation failed)
the program performs no teardown at all, and even for the full sequence
the destructor order differs from exact reverse creation order (the
surface is destroyed before the logical device). -/
theorem teardown_claim_counterexample :
    teardownPerformed 1 ≠ (createdObjects 1).reverse ∧
    teardownPerformed 6 ≠ (createdObjects 6).reverse := by
  constructor <;> decide

/-- C2 (amended): teardown runs only when the whole forward sequence
completed; it then destroys each created object exactly once, in the
destructor's fixed order (image views, swapchain, surface, device,
instance, window); for every strict prefix no teardown is performed. -/
theorem teardown_only_on_completion (k : Nat) :
    (k < 6 → teardownPerformed k = []) ∧
    teardownPerformed 6 = destructorSequence ∧
    (∀ o : EngineObject,
      (teardownPerformed 6).count o = (createdObjects 6).count o) := by
  refine ⟨fun hk => ?_, rfl, by decide⟩
  unfold teardownPerformed
  rw [if_neg (by omega)]

/-- C2 witness: the theorem applied at the prefix of length 3. -/
theorem teardown_only_on_completion_witness : teardownPerformed 3 = [] :=
  (teardown_only_on_completion 3).1 (by decide)

/-- C3 counterexample.  The claim asserts that a current extent in which
only one component equals the sentinel is returned unmodified; the code
instead takes the clamp branch whenever either component equals
`UINT32_MAX` (its verbatim branch requires both components to differ
from the sentinel). -/
theorem extent_claim_counterexample :
    chooseSwapExtent 800 600
        ⟨2, 0, ⟨UINT32_MAX, 768⟩, ⟨200, 200⟩, ⟨1920, 1080⟩⟩ = ⟨800, 600⟩ ∧
    (⟨800, 600⟩ : Extent2D) ≠ ⟨UINT32_MAX, 768⟩ := by
  constructor <;> decide

/-- C3 (amended): the current extent is returned verbatim exactly when
both of its components differ from `UINT32_MAX`; when either component
equals the sentinel, the requested window dimensions are clamped
independently per axis into `[minImageExtent, maxImageExtent]`; plus
the spec's worked examples. -/
theorem extent_selection (w h : Nat) (caps : SurfaceCapabilitiesKHR) :
    (caps.currentExtent.width ≠ UINT32_MAX ∧ caps.currentExtent.height ≠ UINT32_MAX →
      chooseSwapExtent w h caps = caps.currentExtent) ∧
    (caps.currentExtent.width = UINT32_MAX ∨ caps.currentExtent.height = UINT32_MAX →
      chooseSwapExtent w h caps =
        ⟨stdClamp w caps.minImageExtent.width caps.maxImageExtent.width,
         stdClamp h caps.minImageExtent.height caps.maxImageExtent.height⟩) ∧
    chooseSwapExtent 800 600
      ⟨2, 0, ⟨UINT32_MAX, UINT32_MAX⟩, ⟨200, 200⟩, ⟨1920, 1080⟩⟩ = ⟨800, 600⟩ ∧
    chooseSwapExtent 3000 100
      ⟨2, 0, ⟨UINT32_MAX, UINT32_MAX⟩, ⟨200, 200⟩, ⟨1920, 1080⟩⟩ = ⟨1920, 200⟩ ∧
    chooseSwapExtent 800 600
      ⟨2, 0, ⟨1024, 768⟩, ⟨200, 200⟩, ⟨1920, 1080⟩⟩ = ⟨1024, 768⟩ := by
  refine ⟨fun hboth => ?_, fun hone => ?_, by decide, by decide, by decide⟩
  · unfold chooseSwapExtent
    rw [if_pos hboth]
  · unfold chooseSwapExtent
    rw [if_neg (by tauto)]

/-- C3 witness: the theorem applied at the sentinel snapshot of the
spec's first worked example. -/
theorem extent_selection_witness :
    chooseSwapExtent 800 600
      ⟨2, 0, ⟨UINT32_MAX, UINT32_MAX⟩, ⟨200, 200⟩, ⟨1920, 1080⟩⟩ =
      ⟨stdClamp 800 200 1920, stdClamp 600 200 1080⟩ :=
  (extent_selection 800 600
    ⟨2, 0, ⟨UINT32_MAX, UINT32_MAX⟩, ⟨200, 200⟩, ⟨1920, 1080⟩⟩).2.1 (Or.inl rfl)

/-- C7: present-mode selection returns mailbox exactly when the offered
list contains mailbox, FIFO otherwise, and never any third mode. -/
theorem present_mode_selection (modes : List PresentModeKHR) :
    (PresentModeKHR.mailbox ∈ modes →
      chooseSwapPresentMode modes = PresentModeKHR.mailbox) ∧
    (PresentModeKHR.mailbox ∉ modes →
      chooseSwapPresentMode modes = PresentModeKHR.fifo) ∧
    (chooseSwapPresentMode modes = PresentModeKHR.mailbox ∨
      chooseSwapPresentMode modes = PresentModeKHR.fifo) := by
  induction modes with
  | nil =>
    refine ⟨fun h => absurd h (List.not_mem_nil _), fun _ => rfl, Or.inr rfl⟩
  | cons m ms ih =>
    by_cases hm : m = PresentModeKHR.mailbox
    · subst hm
      refine ⟨fun _ => ?_, fun hnot => absurd (List.mem_cons_self _ _) hnot, ?_⟩
      · simp [chooseSwapPresentMode]
      · exact Or.inl (by simp [chooseSwapPresentMode])
    · refine ⟨fun hmem => ?_, fun hnot => ?_, ?_⟩
      · rcases List.mem_cons.mp hmem with h | h
        · exact absurd h.symm hm
        · simpa [chooseSwapPresentMode, hm] using ih.1 h
      · have hms : PresentModeKHR.mailbox ∉ ms := fun h => hnot (List.mem_cons_of_mem _ h)
        simpa [chooseSwapPresentMode, hm] using ih.2.1 hms
      · simpa [chooseSwapPresentMode, hm] using ih.2.2

/-- C7 witness: the theorem applied at a list containing mailbox and at
the empty list. -/
theorem present_mode_selection_witness :
    chooseSwapPresentMode [PresentModeKHR.fifo, PresentModeKHR.mailbox] =
      PresentModeKHR.mailbox ∧
    chooseSwapPresentMode [] = PresentModeKHR.fifo :=
  ⟨(present_mode_selection [PresentModeKHR.fifo, PresentModeKHR.mailbox]).1 (by decide),
   (present_mode_selection []).2.1 (by decide)⟩

/-- C8: the chosen image count is `minImageCount + 1` (in `uint32_t`
arithmetic) when `maxImageCount` is zero, and never exceeds
`maxImageCount` when that bound is nonzero on a well-formed snapshot
(`minImageCount ≤ maxImageCount`, which Vulkan guarantees for nonzero
bounds and which `std::clamp` requires); plus the spec's worked
examples. -/
theorem image_count_selection (caps : SurfaceCapabilitiesKHR) :
    (caps.maxImageCount = 0 →
      chooseImageCount caps = (caps.minImageCount + 1) % 4294967296) ∧
    (caps.maxImageCount ≠ 0 → caps.minImageCount ≤ caps.maxImageCount →
      chooseImageCount caps ≤ caps.maxImageCount) ∧
    chooseImageCount ⟨2, 0, ⟨800, 600⟩, ⟨0, 0⟩, ⟨0, 0⟩⟩ = 3 ∧
    chooseImageCount ⟨2, 2, ⟨800, 600⟩, ⟨0, 0⟩, ⟨0, 0⟩⟩ = 2 := by
  refine ⟨fun h0 => ?_, fun hne hle => ?_, by decide, by decide⟩
  · unfold chooseImageCount
    rw [if_neg (by omega)]
  · unfold chooseImageCount
    rw [if_pos (by omega)]
    exact stdClamp_le_hi _ _ _ hle

/-- C8 witness: the theorem applied at the spec's two snapshots. -/
theorem image_count_selection_witness :
    chooseImageCount ⟨2, 0, ⟨800, 600⟩, ⟨0, 0⟩, ⟨0, 0⟩⟩ = (2 + 1) % 4294967296 ∧
    chooseImageCount ⟨2, 2, ⟨800, 600⟩, ⟨0, 0⟩, ⟨0, 0⟩⟩ ≤ 2 :=
  ⟨(image_count_selection ⟨2, 0, ⟨800, 600⟩, ⟨0, 0⟩, ⟨0, 0⟩⟩).1 rfl,
   (image_count_selection ⟨2, 2, ⟨800, 600⟩, ⟨0, 0⟩, ⟨0, 0⟩⟩).2.1
     (by decide) (by decide)⟩

/-- C9: equal resolved graphics and present indices yield exclusive
sharing with an empty index list; distinct indices yield concurrent
sharing with exactly the list `[graphics, present]`. -/
theorem sharing_mode_selection (g p : Nat) :
    (g = p → swapchainSharing g p = (SharingMode.exclusive, [])) ∧
    (g ≠ p → swapchainSharing g p = (SharingMode.concurrent, [g, p])) := by
  constructor
  · intro h
    unfold swapchainSharing
    rw [if_neg (by simp [h])]
  · intro h
    unfold swapchainSharing
    rw [if_pos h]

/-- C9 witness: the theorem applied at the spec's worked examples
(indices 0,0 and 0,2). -/
theorem sharing_mode_selection_witness :
    swapchainSharing 0 0 = (SharingMode.exclusive, []) ∧
    swapchainSharing 0 2 = (SharingMode.concurrent, [0, 2]) :=
  ⟨(sharing_mode_selection 0 0).1 rfl, (sharing_mode_selection 0 2).2 (by decide)⟩

/-- C5: a device missing any required extension is never suitable,
regardless of its type or swapchain support; and suitability holds
exactly for a discrete GPU carrying the required extensions with at
least one surface format and one present mode. -/
theorem device_suitability (dev : DeviceCandidate) :
    (¬ (∀ e ∈ required_device_extensions_, e ∈ dev.extensionNames) →
      isDeviceSuitable dev = false) ∧
    (isDeviceSuitable dev = true ↔
      dev.deviceType = PhysicalDeviceType.discreteGpu ∧
      (∀ e ∈ required_device_extensions_, e ∈ dev.extensionNames) ∧
      dev.formats ≠ [] ∧ dev.presentModes ≠ []) := by
  refine ⟨fun hmiss => ?_, isDeviceSuitable_eq_true_iff dev⟩
  cases hval : isDeviceSuitable dev with
  | false => rfl
  | true => exact absurd ((isDeviceSuitable_eq_true_iff dev).mp hval).2.1 hmiss

/-- C5 witness: the theorem applied at a discrete GPU with full
swapchain support but an empty reported extension list. -/
theorem device_suitability_witness :
    isDeviceSuitable
      ⟨PhysicalDeviceType.discreteGpu, [],
        [⟨Format.b8g8r8a8Srgb, ColorSpaceKHR.srgbNonlinear⟩],
        [PresentModeKHR.fifo]⟩ = false :=
  (device_suitability _).1 (by decide)

/-- C6: with a nonempty offered list, surface-format selection returns
the first preferred entry when one exists and the first list element
otherwise, always produces a value, and reselecting from the
one-element list holding a previous result returns that same value. -/
theorem surface_format_selection (formats : List SurfaceFormatKHR)
    (hne : formats ≠ []) :
    (formats.any isPreferredFormat = true →
      chooseSwapSurfaceFormat formats = formats.find? isPreferredFormat) ∧
    (formats.any isPreferredFormat = false →
      chooseSwapSurfaceFormat formats = formats.head?) ∧
    (chooseSwapSurfaceFormat formats).isSome = true ∧
    (∀ f, chooseSwapSurfaceFormat formats = some f →
      chooseSwapSurfaceFormat [f] = some f) := by
  refine ⟨fun hany => ?_, fun hnone => ?_,
    chooseSwapSurfaceFormat_isSome formats hne, fun f hf => ?_⟩
  · unfold chooseSwapSurfaceFormat
    cases hfind : formats.find? isPreferredFormat with
    | some g => rfl
    | none =>
      rw [List.find?_eq_none] at hfind
      rw [List.any_eq_true] at hany
      obtain ⟨x, hx, hpx⟩ := hany
      exact absurd hpx (hfind x hx)
  · have hfind : formats.find? isPreferredFormat = none := by
      rw [List.find?_eq_none]
      exact List.any_eq_false.mp hnone
    unfold chooseSwapSurfaceFormat
    rw [hfind]
  · unfold chooseSwapSurfaceFormat at hf ⊢
    cases hfind : formats.find? isPreferredFormat with
    | some g =>
      rw [hfind] at hf
      have hg : isPreferredFormat g = true := List.find?_some hfind
      have hgf : g = f := by injection hf
      subst hgf
      rw [List.find?_cons_of_pos _ hg]
    | none =>
      rw [hfind] at hf
      have hmem : f ∈ formats := by
        obtain ⟨ys, rfl⟩ := List.head?_eq_some_iff.mp hf
        exact List.mem_cons_self _ _
      have hpf : ¬ isPreferredFormat f :=
        List.find?_eq_none.mp hfind f hmem
      rw [List.find?_cons_of_neg _ hpf]
      rfl

/-- C6 witness: the theorem applied at a two-element list whose second
entry is the preferred pair. -/
theorem surface_format_selection_witness :
    chooseSwapSurfaceFormat
      [⟨Format.otherFormat 44, ColorSpaceKHR.srgbNonlinear⟩,
       ⟨Format.b8g8r8a8Srgb, ColorSpaceKHR.srgbNonlinear⟩] =
      [⟨Format.otherFormat 44, ColorSpaceKHR.srgbNonlinear⟩,
       ⟨Format.b8g8r8a8Srgb, ColorSpaceKHR.srgbNonlinear⟩].find? isPreferredFormat :=
  ((surface_format_selection _ (by decide)).1) (by decide)

/-- C10: every device that passed `isDeviceSuitable` reports a nonempty
surface-format list, so the unconditional `front()` fallback of
`chooseSwapSurfaceFormat` is only ever reached on a nonempty list
during swapchain creation and its result is defined. -/
theorem suitable_device_format_fallback_defined (dev : DeviceCandidate)
    (h : isDeviceSuitable dev = true) :
    (chooseSwapSurfaceFormat dev.formats).isSome = true :=
  chooseSwapSurfaceFormat_isSome dev.formats
    ((isDeviceSuitable_eq_true_iff dev).mp h).2.2.1

/-- C10 witness: the theorem applied at a suitable device whose format
list contains no preferred entry, forcing the fallback branch. -/
theorem suitable_device_format_fallback_defined_witness :
    (chooseSwapSurfaceFormat
      (DeviceCandidate.mk PhysicalDeviceType.discreteGpu ["VK_KHR_swapchain"]
        [⟨Format.otherFormat 1, ColorSpaceKHR.srgbNonlinear⟩]
        [PresentModeKHR.fifo]).formats).isSome = true :=
  suitable_device_format_fallback_defined _ (by decide)

/-- C4: queue-family resolution assigns, to each of the four roles
independently, the highest index of a family offering that role (by
capability bit for graphics/transfer/compute, by the surface-support
query for present) and leaves a role unset exactly when no family
offers it; a single family (here one with all three capability bits
and present support) may be assigned to all roles simultaneously. -/
theorem queue_family_resolution (fams : List QueueFamilyInfo) :
    IsHighestMatch offersGraphics fams (findQueueFamilies fams).graphics ∧
    IsHighestMatch offersTransfer fams (findQueueFamilies fams).transfer ∧
    IsHighestMatch offersCompute fams (findQueueFamilies fams).compute ∧
    IsHighestMatch offersPresent fams (findQueueFamilies fams).present ∧
    findQueueFamilies [⟨7, true⟩] =
      { graphics := some 0, transfer := some 0,
        compute := some 0, present := some 0 } := by
  refine ⟨?_, ?_, ?_, ?_, by decide⟩
  · rw [findQueueFamilies, findQueueFamiliesAux_graphics]
    exact scanRole_isHighestMatch offersGraphics fams
  · rw [findQueueFamilies, findQueueFamiliesAux_transfer]
    exact scanRole_isHighestMatch offersTransfer fams
  · rw [findQueueFamilies, findQueueFamiliesAux_compute]
    exact scanRole_isHighestMatch offersCompute fams
  · rw [findQueueFamilies, findQueueFamiliesAux_present]
    exact scanRole_isHighestMatch offersPresent fams

/-- C4 witness: the theorem applied at a two-family list where both
families offer graphics, checking that the later index wins. -/
theorem queue_family_resolution_witness :
    IsHighestMatch offersGraphics [⟨1, false⟩, ⟨1, true⟩]
      ((findQueueFamilies [⟨1, false⟩, ⟨1, true⟩]).graphics) :=
  (queue_family_resolution [⟨1, false⟩, ⟨1, true⟩]).1

/-- C1: with a single queue family offering graphics and present but
not transfer or compute, `initQueueFamilies` itself is non-fatal (it
returns the resolved indices together with the two warnings) — but the
next startup step, `initDevice`, unconditionally dereferences all four
optionals with `value()`, so the startup phase aborts with
`std::bad_optional_access` instead of proceeding through logical-device
creation as the claim states. -/
theorem degraded_queue_startup_aborts :
    initQueueFamiliesCheck (findQueueFamilies [⟨1, true⟩]) =
      Except.ok
        ({ graphics := some 0, transfer := none,
           compute := none, present := some 0 },
         ["Could not find a transfer queue for selected device",
          "Could not find a compute queue for selected device"]) ∧
    startupQueuePhase [⟨1, true⟩] =
      Except.error StartupError.badOptionalAccess := by
  constructor
  · rfl
  · rfl

end VulkanEngine
